import Mathlib

/-! Shallow embedding of the physical-memory allocator core of the `auton`
kernel: the buddy frame allocator, the free-lists index with its bitmap,
per-hart caches, and the SLUB-style slab allocator, translated from
`src/memory/frame_allocator.rs`, `src/memory/free_lists.rs`,
`src/memory/hart_cache.rs`, `src/memory/slub.rs`, `src/memory/frame.rs`
and `src/memory/pmem_map.rs`.

Modelling conventions:
* Intrusive linked lists are modelled as Lean lists of frame indices or
  slot addresses, front first (the specification treats the intrusive-list
  implementation as a black box and assumes only its contract).
* Machine integers are `Nat`; the 64-bit free-list bitmap operations are
  written with `2 ^ 64`-masks exactly where `u64` complement appears in
  the source, and theorems carry the bounds that `u64` makes implicit.
* Loops are modelled by structural recursion on an explicit bound that
  dominates the number of iterations of the source loop.
* A `Frame` descriptor pointer is identified with its index in the frame
  pool, and a byte pointer with its address as a `Nat`.
* Fatal `assert!`/`panic!` outcomes of the allocation entry points are the
  explicit result `AllocResult.panic`; `debug_assert!` checks and the
  `ram.contains` assertion of `address_to_frame_ptr` are not modelled, and
  theorems keep their inputs inside the asserted ranges. -/

namespace Auton

/-- One base page: `BASE_SIZE` in `memory/frame.rs`. -/
def BASE_SIZE : Nat := 4096

/-- A `core::alloc::Layout`: requested size and alignment in bytes. -/
structure Layout where
  size : Nat
  align : Nat
deriving DecidableEq

/-- Modelled from the spec: `BASE_SIZE_LAYOUT` of the evolved `frame.rs`
(absent from `src/`; only an earlier draft of `frame.rs` is present),
the layout of one base page used when a slab page is returned to the
buddy allocator. -/
def BASE_SIZE_LAYOUT : Layout := ⟨BASE_SIZE, BASE_SIZE⟩

/-- Result of an allocation entry point: a byte address (`ok`), a null
pointer (`null`), or a fatal `assert!`/`panic!` (`panic`). -/
inductive AllocResult where
  | ok (addr : Nat)
  | null
  | panic
deriving DecidableEq

/-- Fuel-indexed count of trailing zero bits (fuel first). -/
def trailingZerosAux : Nat → Nat → Nat
  | 0, _ => 0
  | fuel + 1, n => if n % 2 = 1 then 0 else trailingZerosAux fuel (n / 2) + 1

/-- The `u64::trailing_zeros`: for `0 < n < 2 ^ 64` this is the least set bit
of `n`; for `n = 0` it is `64`, as on the machine. -/
def trailingZeros (n : Nat) : Nat := trailingZerosAux 64 n

/-- All 64 bits set; `!x` on a `u64` is `MASK64 ^^^ x`. -/
def MASK64 : Nat := 2 ^ 64 - 1

/-- The `u64` bitmap of `memory/free_lists.rs` summarising non-empty
orders. -/
structure Bitmap where
  bits : Nat
deriving DecidableEq

/-- The `Bitmap::new`. -/
def Bitmap.new : Bitmap := ⟨0⟩

/-- The `Bitmap::set`: `self.0 |= 1 << order`. -/
def Bitmap.set (b : Bitmap) (order : Nat) : Bitmap :=
  ⟨b.bits ||| (1 <<< order)⟩

/-- The `Bitmap::clear`: `self.0 &= !(1 << order)`. -/
def Bitmap.clear (b : Bitmap) (order : Nat) : Bitmap :=
  ⟨b.bits &&& (MASK64 ^^^ (1 <<< order))⟩

/-- The `Bitmap::find_first_set_from`: mask away orders below
`requested_order`, then take the trailing-zero count of what remains. -/
def Bitmap.find_first_set_from (b : Bitmap) (requested_order : Nat) : Option Nat :=
  let suitable_mask := MASK64 ^^^ ((1 <<< requested_order) - 1)
  let suitable_blocks := b.bits &&& suitable_mask
  if suitable_blocks = 0 then none else some (trailingZeros suitable_blocks)

/-- The `FreeLists` of `memory/free_lists.rs`: one doubly-linked list of
free frames per order (modelled index-wise as a function from order to the
list of frame indices, front first) plus the bitmap. -/
structure FreeLists where
  lists : Nat → List Nat
  bitmap : Bitmap

/-- The `FreeLists::new` over freshly initialised empty lists. -/
def FreeLists.new : FreeLists := ⟨fun _ => [], Bitmap.new⟩

/-- The `FreeLists::push_frame`: `order` stands for the dereference
`frame.as_ref().order()` of the pushed frame; push to the front of
`lists[order]` and set the bitmap bit. -/
def FreeLists.push_frame (fl : FreeLists) (order f : Nat) : FreeLists :=
  { lists := Function.update fl.lists order (f :: fl.lists order)
    bitmap := fl.bitmap.set order }

/-- The `FreeLists::pop_frame`: pop the front of `lists[order]`; clear the
bitmap bit if the list became empty. -/
def FreeLists.pop_frame (fl : FreeLists) (order : Nat) : Option (Nat × FreeLists) :=
  match fl.lists order with
  | [] => none
  | f :: rest =>
    some (f, { lists := Function.update fl.lists order rest
               bitmap := if rest.isEmpty then fl.bitmap.clear order else fl.bitmap })

/-- The `FreeLists::remove_frame`: `order` stands for the dereference
`frame.as_ref().order()` of the removed frame; splice the frame out of
`lists[order]` and clear the bitmap bit if the list became empty. -/
def FreeLists.remove_frame (fl : FreeLists) (order f : Nat) : FreeLists :=
  let rest := (fl.lists order).erase f
  { lists := Function.update fl.lists order rest
    bitmap := if rest.isEmpty then fl.bitmap.clear order else fl.bitmap }

/-- The `FreeLists::find_first_free_from`. -/
def FreeLists.find_first_free_from (fl : FreeLists) (from_order : Nat) : Option Nat :=
  fl.bitmap.find_first_set_from from_order

/-- A per-hart cache (`memory/hart_cache.rs`): a singly-linked LIFO list
of items (frame indices or slot addresses) plus the mutable target size.
The sizing policy (`Quartering` or `Greedy`) is supplied at each use site
by the functions below, matching the strategy type parameter of the
source. -/
structure HartCache where
  items : List Nat
  target_size : Nat
deriving DecidableEq

def HartCache.len (c : HartCache) : Nat := c.items.length

def HartCache.is_empty (c : HartCache) : Bool := decide (c.len = 0)

/-- The `HartCache::is_full`: `len >= target_size`. -/
def HartCache.is_full (c : HartCache) : Bool := decide (c.target_size ≤ c.len)

def HartCache.push (c : HartCache) (x : Nat) : HartCache :=
  { c with items := x :: c.items }

def HartCache.pop (c : HartCache) : Option (Nat × HartCache) :=
  match c.items with
  | [] => none
  | x :: rest => some (x, { c with items := rest })

/-- The `Quartering::refill_amount`: `(target / 4).max(1)`. -/
def quartering_refill_amount (target_size _current_len : Nat) : Nat :=
  max (target_size / 4) 1

/-- The `Quartering::drain_amount`: `(target / 4).min(len)`. -/
def quartering_drain_amount (target_size current_len : Nat) : Nat :=
  min (target_size / 4) current_len

/-- The `Greedy::refill_amount`: `target.saturating_sub(len)`. -/
def greedy_refill_amount (target_size current_len : Nat) : Nat :=
  target_size - current_len

/-- The `Greedy::drain_amount`: `len / 2` if `len > 2 * target`, else `0`. -/
def greedy_drain_amount (target_size current_len : Nat) : Nat :=
  if 2 * target_size < current_len then current_len / 2 else 0

/-- Modelled from the spec: the per-frame slab payload of the evolved
`frame.rs` (absent from `src/`): the owning size-class manager (as an
index), the head of the free-slot chain threaded through slot first words
(modelled as the list of free slot addresses, head first), and the in-use
count (spec section 3, `Frame` payload table). -/
structure SlabInfo where
  cache : Nat
  free_slots : List Nat
  in_use_count : Nat
deriving DecidableEq

/-- The frame state tag: `Free`, `Allocated`, or `Slab` with its payload
(the third variant is modelled from the spec, see `SlabInfo`). -/
inductive FrameState where
  | Free
  | Allocated
  | Slab (info : SlabInfo)
deriving DecidableEq

/-- One frame descriptor (`memory/frame.rs`): block order and state. The
intrusive prev/next links live in the list model. -/
structure Frame where
  order : Nat
  state : FrameState
deriving DecidableEq

/-- The `Frame::new()`: `Free` with order `0`. -/
def Frame.new : Frame := ⟨0, .Free⟩

def Frame.is_free (f : Frame) : Bool :=
  match f.state with
  | .Free => true
  | _ => false

/-- Modelled from the spec: `Frame::convert_to_slab(cache, head)` of the
evolved `frame.rs` transitions the frame to `Slab` state and installs the
slab payload with an in-use count of zero. -/
def Frame.convert_to_slab (f : Frame) (cache : Nat) (slots : List Nat) : Frame :=
  { f with state := .Slab ⟨cache, slots, 0⟩ }

/-- The fields of `PhysicalMemoryMap` (`memory/pmem_map.rs`) that the
allocators consult: the `ram` region, the start of the `frame_pool`
region holding the dense `Frame` descriptor array, and the `free_memory`
region. `frame_desc_size` is the stride of that array,
`size_of::<Frame>()`: the evolved `frame.rs` is absent from `src/`, so
the concrete Rust layout is unknown and the stride is kept as map
data. -/
structure MemoryMap where
  ram_start : Nat
  ram_size : Nat
  frame_pool_start : Nat
  frame_desc_size : Nat
  free_start : Nat
  free_size : Nat
deriving DecidableEq

/-- The `PhysicalMemoryMap::num_frames`. -/
def MemoryMap.num_frames (m : MemoryMap) : Nat := m.ram_size / BASE_SIZE

/-- The `MemoryRegion::contains` for the `ram` region. -/
def MemoryMap.contains_ram (m : MemoryMap) (a : Nat) : Prop :=
  m.ram_start ≤ a ∧ a < m.ram_start + m.ram_size

instance (m : MemoryMap) (a : Nat) : Decidable (m.contains_ram a) :=
  inferInstanceAs (Decidable (_ ∧ _))

/-- The `PhysicalMemoryMap::frame_idx_from_address` (and hence
`address_to_frame_ptr`): `(a - ram.start) / BASE_SIZE`. -/
def MemoryMap.frame_idx_from_address (m : MemoryMap) (a : Nat) : Nat :=
  (a - m.ram_start) / BASE_SIZE

/-- The `PhysicalMemoryMap::frame_ref_to_address`:
`ram.start + frame_idx * BASE_SIZE`. -/
def MemoryMap.frame_to_address (m : MemoryMap) (f : Nat) : Nat :=
  m.ram_start + f * BASE_SIZE

/-- The byte address of the `Frame` descriptor itself — the numeric value
of a `NonNull<Frame>` into the dense pool array, i.e.
`frame_pool.start + f * size_of::<Frame>()` (the pointer arithmetic of
`address_to_frame_ptr`, read in the forward direction). This is what a
`.cast::<u8>()` of a frame pointer yields. -/
def MemoryMap.frame_ptr_addr (m : MemoryMap) (f : Nat) : Nat :=
  m.frame_pool_start + f * m.frame_desc_size

/-- The `FrameAllocator` state (`memory/frame_allocator.rs`): the locked
free lists, the per-hart caches of order-0 frames (Quartering policy),
the number of orders, the frame descriptor pool (a function from frame
index to descriptor, standing for the dense array in `frame_pool`), and
the memory map. -/
structure FAState where
  free_lists : FreeLists
  hart_caches : Nat → HartCache
  orders : Nat
  frames : Nat → Frame
  mmap : MemoryMap

/-- Write one frame descriptor of the pool. -/
def FAState.set_frame (st : FAState) (f : Nat) (fr : Frame) : FAState :=
  { st with frames := Function.update st.frames f fr }

/-- The `frame.set_order(o)` on descriptor `f`. -/
def FAState.set_order (st : FAState) (f o : Nat) : FAState :=
  st.set_frame f { st.frames f with order := o }

/-- The `frame.set_state(s)` on descriptor `f`. -/
def FAState.set_state (st : FAState) (f : Nat) (s : FrameState) : FAState :=
  st.set_frame f { st.frames f with state := s }

/-- Push frame `f` onto the global free lists, reading the order from its
descriptor exactly as `FreeLists::push_frame` does. -/
def FAState.fl_push (st : FAState) (f : Nat) : FAState :=
  { st with free_lists := st.free_lists.push_frame (st.frames f).order f }

/-- Push onto the hart-local cache of `hart`. -/
def FAState.cache_push (st : FAState) (hart f : Nat) : FAState :=
  { st with hart_caches := Function.update st.hart_caches hart ((st.hart_caches hart).push f) }

/-- Pop from the hart-local cache of `hart`. -/
def FAState.cache_pop (st : FAState) (hart : Nat) : Option Nat × FAState :=
  match (st.hart_caches hart).pop with
  | none => (none, st)
  | some (f, c) => (some f, { st with hart_caches := Function.update st.hart_caches hart c })

/-- Fuel-indexed floor base-2 logarithm (fuel first). -/
def ilog2Aux : Nat → Nat → Nat
  | 0, _ => 0
  | fuel + 1, n => if 2 ≤ n then ilog2Aux fuel (n / 2) + 1 else 0

/-- Rust `usize::ilog2` (floor log2) for machine-sized values. -/
def ilog2 (n : Nat) : Nat := ilog2Aux 64 n

/-- Rust `usize::next_power_of_two`: the smallest power of two `≥ n`
(`1` for `n ≤ 1`). -/
def nextPowerOfTwo (n : Nat) : Nat :=
  if n ≤ 1 then 1 else 2 ^ (ilog2 (n - 1) + 1)

/-- The `FrameAllocator::order_from_size`:
`size.div_ceil(BASE_SIZE).next_power_of_two().ilog2()`, with `0` for a
zero size. -/
def order_from_size (size : Nat) : Nat :=
  if size = 0 then 0
  else ilog2 (nextPowerOfTwo ((size + BASE_SIZE - 1) / BASE_SIZE))

/-- The descending split loop of `FrameAllocator::prepare_block` (last
argument is the remaining iteration count): iteration with
`current_order = requested_order + count` splits off the upper buddy at
`block_addr + (1 << current_order) * BASE_SIZE`, marks both halves with
`current_order`, and pushes the buddy. -/
def FAState.split_loop : FAState → Nat → Nat → Nat → FAState
  | st, _, _, 0 => st
  | st, block, requested_order, count + 1 =>
    let current_order := requested_order + count
    let block_addr := st.mmap.frame_to_address block
    let buddy_addr := block_addr + (1 <<< current_order) * BASE_SIZE
    let buddy := st.mmap.frame_idx_from_address buddy_addr
    let st1 := (st.set_order block current_order).set_order buddy current_order
    FAState.split_loop (st1.fl_push buddy) block requested_order count

/-- The `FrameAllocator::prepare_block`. -/
def FAState.prepare_block (st : FAState) (requested_order : Nat) : Option (Nat × FAState) :=
  match st.free_lists.find_first_free_from requested_order with
  | none => none
  | some found_order =>
    match st.free_lists.pop_frame found_order with
    | none => none
    | some (block, fl1) =>
      some (block,
        FAState.split_loop { st with free_lists := fl1 } block requested_order
          (found_order - requested_order))

/-- The `FrameAllocator::finalize_frame_allocation`: mark `Allocated` and
translate the head frame back to a byte address (`NonNull::new` yields
null exactly for address zero). -/
def FAState.finalize_frame_allocation (st : FAState) (f : Nat) : AllocResult × FAState :=
  let st1 := st.set_state f .Allocated
  let addr := st1.mmap.frame_to_address f
  (if addr = 0 then .null else .ok addr, st1)

/-- The refill loop of `FrameAllocator::get_from_cache`: up to `n` calls
to `prepare_block(0)`, pushing each block into the hart cache, stopping
early when the global allocator is out of order-0 frames. -/
def FAState.cache_refill_loop : FAState → Nat → Nat → FAState
  | st, _, 0 => st
  | st, hart, n + 1 =>
    match st.prepare_block 0 with
    | some (f, st1) => FAState.cache_refill_loop (st1.cache_push hart f) hart n
    | none => st

/-- The `FrameAllocator::get_from_cache`. -/
def FAState.get_from_cache (st : FAState) (hart : Nat) : Option Nat × FAState :=
  let cache := st.hart_caches hart
  if cache.is_empty then
    let st1 := FAState.cache_refill_loop st hart
      (quartering_refill_amount cache.target_size cache.len)
    st1.cache_pop hart
  else
    st.cache_pop hart

/-- The `FrameAllocator::alloc_slab`: order-0, cache-fed. -/
def FAState.alloc_slab (st : FAState) (hart : Nat) : Option Nat × FAState :=
  st.get_from_cache hart

/-- The `FrameAllocator::alloc`. Alignment above `BASE_SIZE` yields null; a
zero size yields the dangling sentinel (`NonNull::dangling::<u8>()`,
address 1); a size not strictly below `free_memory.size` fails the
`assert!` (panic); otherwise the request is served at
`order_from_size(size)` through the hart cache (order 0) or directly
through `prepare_block`, with a fatal out-of-memory panic on failure. -/
def FAState.alloc (st : FAState) (hart : Nat) (layout : Layout) : AllocResult × FAState :=
  if BASE_SIZE < layout.align then (.null, st)
  else if layout.size = 0 then (.ok 1, st)
  else if layout.size < st.mmap.free_size then
    let order := order_from_size layout.size
    if order = 0 then
      match st.get_from_cache hart with
      | (some f, st1) => st1.finalize_frame_allocation f
      | (none, st1) => (.panic, st1)
    else
      match st.prepare_block order with
      | some (f, st1) => st1.finalize_frame_allocation f
      | none => (.panic, st)
  else (.panic, st)

/-- The coalescing loop of `FrameAllocator::free_to_global` (fuel first;
fuel dominates `orders - 1 - cur_order`). While `cur_order < orders - 1`,
the buddy at `cur_addr XOR (1 << cur_order) * BASE_SIZE` is examined; a
free buddy of equal order is removed from its free list, the
lower-addressed half becomes the merged head, and the order grows by one.
Returns the final state and the merged head. -/
def FAState.fg_loop : Nat → FAState → Nat → Nat → Nat → FAState × Nat
  | 0, st, cur, _, _ => (st, cur)
  | fuel + 1, st, cur, cur_addr, cur_order =>
    if cur_order < st.orders - 1 then
      let buddy_addr := cur_addr ^^^ ((1 <<< cur_order) * BASE_SIZE)
      let buddy := st.mmap.frame_idx_from_address buddy_addr
      let bf := st.frames buddy
      if bf.is_free = true ∧ bf.order = cur_order then
        let st1 := { st with free_lists := st.free_lists.remove_frame bf.order buddy }
        let cur2 := if buddy_addr < cur_addr then buddy else cur
        let cur_addr2 := if buddy_addr < cur_addr then buddy_addr else cur_addr
        let next_order := cur_order + 1
        let st2 := st1.set_order cur2 next_order
        FAState.fg_loop fuel st2 cur2 cur_addr2 next_order
      else (st, cur)
    else (st, cur)

/-- The `FrameAllocator::free_to_global`: coalesce upward from the frame's
recorded order, then push the merged head onto its free list. -/
def FAState.free_to_global (st : FAState) (f : Nat) : FAState :=
  let r := FAState.fg_loop (st.orders + 1) st f (st.mmap.frame_to_address f) (st.frames f).order
  r.1.fl_push r.2

/-- The cache-trim loop of `FrameAllocator::dealloc`: pop `n` frames from
the hart cache and `free_to_global` each. -/
def FAState.cache_trim_loop : FAState → Nat → Nat → FAState
  | st, _, 0 => st
  | st, hart, n + 1 =>
    match st.cache_pop hart with
    | (some f, st1) => FAState.cache_trim_loop (st1.free_to_global f) hart n
    | (none, st1) => st1

/-- The `FrameAllocator::dealloc`. A zero-size layout is a no-op; otherwise
the pointer is translated to its frame, the frame is marked `Free`, and
the block is either cached (order 0) — trimming a full cache first — or
returned to the global free lists. The layout is consulted only for the
zero-size test. -/
def FAState.dealloc (st : FAState) (hart ptr : Nat) (layout : Layout) : FAState :=
  if layout.size = 0 then st
  else
    let f := st.mmap.frame_idx_from_address ptr
    let st1 := st.set_state f .Free
    let order := (st1.frames f).order
    if 0 < order then st1.free_to_global f
    else
      let cache := st1.hart_caches hart
      if cache.is_full then
        let st2 := FAState.cache_trim_loop st1 hart
          (quartering_drain_amount cache.target_size cache.len)
        st2.cache_push hart f
      else st1.cache_push hart f

/-- The greedy distribution loop of `FrameAllocator::init` (fuel first;
fuel = number of free frames dominates the iteration count since every
iteration consumes at least one frame). While frames remain, the largest
block of `2^k ≤ frames_left` frames is carved off, its head descriptor
gets order `k`, and the head is pushed onto `free_lists[k]`. -/
def init_loop (mmap : MemoryMap) : Nat → (Nat → Frame) → FreeLists → Nat → Nat →
    ((Nat → Frame) × FreeLists)
  | 0, frames, fl, _, _ => (frames, fl)
  | fuel + 1, frames, fl, current_free_address, frames_left =>
    if frames_left = 0 then (frames, fl)
    else
      let largest_block_order := ilog2 frames_left
      let largest_block_frames := 1 <<< largest_block_order
      let largest_block_bytes := largest_block_frames * BASE_SIZE
      let head_frame_idx := (current_free_address - mmap.ram_start) / BASE_SIZE
      let frames1 := Function.update frames head_frame_idx
        { frames head_frame_idx with order := largest_block_order }
      let fl1 := fl.push_frame largest_block_order head_frame_idx
      init_loop mmap fuel frames1 fl1 (current_free_address + largest_block_bytes)
        (frames_left - largest_block_frames)

/-- The `FrameAllocator::init`: every descriptor reset to `Frame::new()`,
`orders = ilog2(num_frames) + 1`, empty free lists, then the greedy
distribution of `free_memory`; hart caches start empty with the default
target 16. The `assert_eq!` accounting checks of the source always hold
for the loop as modelled; the source contains no alignment assertion. -/
def FAState.init (mmap : MemoryMap) : FAState :=
  let frames_left := mmap.free_size / BASE_SIZE
  let r := init_loop mmap frames_left (fun _ => Frame.new) FreeLists.new
    mmap.free_start frames_left
  { free_lists := r.2
    hart_caches := fun _ => ⟨[], 16⟩
    orders := ilog2 mmap.num_frames + 1
    frames := r.1
    mmap := mmap }

/-- The `SIZE_CLASSES` of `memory/slub.rs`. -/
def SIZE_CLASSES : List Nat := [8, 16, 32, 64, 128, 256, 512, 1024, 2048]

def MIN_HART_CACHE_TARGET : Nat := 8

def MAX_HART_CACHE_TARGET : Nat := 128

def EMPTY_SLABS_CAP : Nat := 4

/-- One `SizeClassManager` (`memory/slub.rs`): per-hart Greedy caches of
slot addresses, the `partial_slabs` list (named `part_slabs` here), the
`empty_slabs` list, the object size and the slot count per slab. -/
structure SizeClassState where
  hart_caches : Nat → HartCache
  part_slabs : List Nat
  empty_slabs : List Nat
  object_size : Nat
  slots_per_slab : Nat

instance : Inhabited SizeClassState :=
  ⟨⟨fun _ => ⟨[], 8⟩, [], [], 8, 512⟩⟩

/-- The `SizeClassManager::new`: `slots_per_slab = BASE_SIZE / object_size`,
hart-cache target `slots_per_slab.clamp(MIN, MAX)`, empty lists. -/
def SizeClassState.new (object_size : Nat) : SizeClassState :=
  let slots_per_slab := BASE_SIZE / object_size
  let hart_cache_target := min (max slots_per_slab MIN_HART_CACHE_TARGET) MAX_HART_CACHE_TARGET
  { hart_caches := fun _ => ⟨[], hart_cache_target⟩
    part_slabs := []
    empty_slabs := []
    object_size := object_size
    slots_per_slab := slots_per_slab }

/-- The `SizeClassManager::create_new_slab`: take an order-0 page from the
frame allocator, cut it into `slots_per_slab` slots chained head-first in
address order, and `convert_to_slab` the frame (back pointer
`cache_self`, the index of this size class). Returns the slab frame. -/
def SizeClassState.create_new_slab (cls : SizeClassState) (fa : FAState)
    (hart cache_self : Nat) : Option Nat × FAState :=
  match fa.alloc_slab hart with
  | (none, fa1) => (none, fa1)
  | (some f, fa1) =>
    let frame_addr := fa1.mmap.frame_to_address f
    let slots := (List.range cls.slots_per_slab).map (fun i => frame_addr + i * cls.object_size)
    (some f, fa1.set_frame f ((fa1.frames f).convert_to_slab cache_self slots))

/-- The slot-moving inner loop of `SizeClassManager::refill_hart_cache`:
while slots remain on the slab's free chain and the need is positive, a
slot moves to the hart cache and `in_use_count` grows. Returns the cache,
the slab info and the remaining need. -/
def slab_grab_loop : HartCache → SlabInfo → Nat → HartCache × SlabInfo × Nat
  | cache, info, 0 => (cache, info, 0)
  | cache, info, n + 1 =>
    match info.free_slots with
    | [] => (cache, info, n + 1)
    | s :: rest => slab_grab_loop (cache.push s) ⟨info.cache, rest, info.in_use_count + 1⟩ n

/-- Processing of one acquired slab inside `refill_hart_cache`: lock its
slab info, move slots, and re-list it on `partial_slabs` exactly when its
free chain is still non-empty. (`lock_slab_info` on a non-`Slab` frame is
a contract violation in the source; it is modelled as a skip.) -/
def SizeClassState.process_slab (cls : SizeClassState) (fa : FAState)
    (hart slab amount : Nat) : SizeClassState × FAState × Nat :=
  match (fa.frames slab).state with
  | .Slab info =>
    let r := slab_grab_loop (cls.hart_caches hart) info amount
    let fa1 := fa.set_frame slab { fa.frames slab with state := .Slab r.2.1 }
    let cls1 := { cls with hart_caches := Function.update cls.hart_caches hart r.1 }
    let cls2 := if r.2.1.free_slots.isEmpty then cls1
      else { cls1 with part_slabs := slab :: cls1.part_slabs }
    (cls2, fa1, r.2.2)
  | _ => (cls, fa, amount)

/-- The outer loop of `SizeClassManager::refill_hart_cache` (fuel first):
while the need is positive, acquire a slab — front of `partial_slabs`,
else front of `empty_slabs`, else a fresh slab — and process it. The
`Bool` is `Ok`/`Err` of the source. -/
def SizeClassState.refill_loop (hart cache_self : Nat) :
    Nat → SizeClassState → FAState → Nat → Bool × SizeClassState × FAState
  | 0, cls, fa, _ => (false, cls, fa)
  | fuel + 1, cls, fa, amount =>
    if amount = 0 then (true, cls, fa)
    else
      match cls.part_slabs with
      | slab :: ps =>
        let r := SizeClassState.process_slab { cls with part_slabs := ps } fa hart slab amount
        SizeClassState.refill_loop hart cache_self fuel r.1 r.2.1 r.2.2
      | [] =>
        match cls.empty_slabs with
        | slab :: es =>
          let r := SizeClassState.process_slab { cls with empty_slabs := es } fa hart slab amount
          SizeClassState.refill_loop hart cache_self fuel r.1 r.2.1 r.2.2
        | [] =>
          match cls.create_new_slab fa hart cache_self with
          | (none, fa1) => (false, cls, fa1)
          | (some slab, fa1) =>
            let r := SizeClassState.process_slab cls fa1 hart slab amount
            SizeClassState.refill_loop hart cache_self fuel r.1 r.2.1 r.2.2

/-- The `SizeClassManager::refill_hart_cache`. The fuel dominates the
iteration count: every iteration either lowers the need or consumes a
listed slab without re-listing it. -/
def SizeClassState.refill_hart_cache (cls : SizeClassState) (fa : FAState)
    (hart cache_self : Nat) : Bool × SizeClassState × FAState :=
  let cache := cls.hart_caches hart
  let amount := greedy_refill_amount cache.target_size cache.len
  SizeClassState.refill_loop hart cache_self
    (amount + cls.part_slabs.length + cls.empty_slabs.length + 1) cls fa amount

/-- The `SizeClassManager::alloc`: pop the hart cache; on a miss refill and
pop again. -/
def SizeClassState.alloc (cls : SizeClassState) (fa : FAState)
    (hart cache_self : Nat) : Option Nat × SizeClassState × FAState :=
  match (cls.hart_caches hart).pop with
  | some (slot, c) =>
    (some slot, { cls with hart_caches := Function.update cls.hart_caches hart c }, fa)
  | none =>
    match cls.refill_hart_cache fa hart cache_self with
    | (false, cls1, fa1) => (none, cls1, fa1)
    | (true, cls1, fa1) =>
      match (cls1.hart_caches hart).pop with
      | some (slot, c) =>
        (some slot, { cls1 with hart_caches := Function.update cls1.hart_caches hart c }, fa1)
      | none => (none, cls1, fa1)

/-- The body of the `for_each` over drained slots in
`SizeClassManager::dealloc`: translate the slot address to its owning
frame, thread the slot back onto the frame's free chain, decrement
`in_use_count`, and maintain the slab lists — a newly-partial slab goes
on `partial_slabs`; a newly-empty slab is spliced out of `partial_slabs`
and pushed onto `empty_slabs`, and when `empty_slabs.len()` has reached
`EMPTY_SLABS_CAP` the oldest (back) empty slab is popped and handed to
`FrameAllocator::dealloc` with `BASE_SIZE_LAYOUT`. The release call
passes `oldest_slab.cast()` — the `Frame` descriptor's own byte address
(`frame_ptr_addr`), not the slab's backing page. -/
def SizeClassState.free_drained_slot (cls : SizeClassState) (fa : FAState)
    (hart slot : Nat) : SizeClassState × FAState :=
  let f := fa.mmap.frame_idx_from_address slot
  match (fa.frames f).state with
  | .Slab info =>
    let was_full := info.in_use_count = cls.slots_per_slab
    let info1 : SlabInfo := ⟨info.cache, slot :: info.free_slots, info.in_use_count - 1⟩
    let fa1 := fa.set_frame f { fa.frames f with state := .Slab info1 }
    if was_full then ({ cls with part_slabs := f :: cls.part_slabs }, fa1)
    else if info1.in_use_count = 0 then
      let cls1 := { cls with part_slabs := cls.part_slabs.erase f }
      let empty1 := f :: cls1.empty_slabs
      if EMPTY_SLABS_CAP ≤ empty1.length then
        match empty1.getLast? with
        | some oldest =>
          ({ cls1 with empty_slabs := empty1.dropLast },
            fa1.dealloc hart (fa1.mmap.frame_ptr_addr oldest) BASE_SIZE_LAYOUT)
        | none => ({ cls1 with empty_slabs := empty1 }, fa1)
      else ({ cls1 with empty_slabs := empty1 }, fa1)
    else (cls, fa1)
  | _ => (cls, fa)

/-- The `SizeClassManager::dealloc`: push into the hart cache when it is not
full. Otherwise drain `drain_amount` slots from the cache and give each
drained slot back to its owning slab; the slot being freed is pushed only
in the not-full branch. -/
def SizeClassState.dealloc (cls : SizeClassState) (fa : FAState)
    (hart slot : Nat) : SizeClassState × FAState :=
  let cache := cls.hart_caches hart
  if cache.is_full = false then
    ({ cls with hart_caches := Function.update cls.hart_caches hart (cache.push slot) }, fa)
  else
    let n := greedy_drain_amount cache.target_size cache.len
    let drained := cache.items.take n
    let cache1 : HartCache := { cache with items := cache.items.drop n }
    let cls1 := { cls with hart_caches := Function.update cls.hart_caches hart cache1 }
    drained.foldl (fun acc s => SizeClassState.free_drained_slot acc.1 acc.2 hart s) (cls1, fa)

/-- The `SlubAllocator`: the nine size-class managers. -/
structure SlubState where
  size_classes : List SizeClassState

/-- The `SlubAllocator::new` (the hart-count argument of the source is not
consulted there; caches are statically sized by `MAX_HARTS`). -/
def SlubState.new : SlubState := ⟨SIZE_CLASSES.map SizeClassState.new⟩

/-- The `SlubAllocator::find_size_class`: the first size class whose
`object_size ≥ layout.size()`, as an index; the layout's alignment is not
consulted. -/
def SlubState.find_size_class (s : SlubState) (layout : Layout) : Option Nat :=
  s.size_classes.findIdx? (fun c => decide (layout.size ≤ c.object_size))

/-- The `KernelAllocator::alloc` (`unsafe impl GlobalAlloc for
KernelAllocator`): null while the `OnceLock` holds no `SlubAllocator`;
otherwise route to the found size class and allocate from it, null when
no class fits or the class allocation fails. -/
def kernelAlloc (slub : Option SlubState) (fa : FAState) (hart : Nat)
    (layout : Layout) : AllocResult × Option SlubState × FAState :=
  match slub with
  | none => (.null, none, fa)
  | some s =>
    match s.find_size_class layout with
    | none => (.null, some s, fa)
    | some i =>
      match (s.size_classes.getD i default).alloc fa hart i with
      | (some slot, cls1, fa1) => (.ok slot, some ⟨s.size_classes.set i cls1⟩, fa1)
      | (none, cls1, fa1) => (.null, some ⟨s.size_classes.set i cls1⟩, fa1)

/-! Concrete states used by witnesses, counterexamples and failing-input
evaluations. -/

/-- A well-aligned boot layout: 128 pages of RAM at address 0, the frame
pool (128 descriptors of 64 bytes) at pages 16 and 17, and the free pool
being the upper 64 pages (so the single initial order-6 block is
`2^6`-page aligned). -/
def mmapA : MemoryMap := ⟨0, 524288, 65536, 64, 262144, 262144⟩

/-- The frame allocator as initialised on `mmapA`: one order-6 block at
frame 64, `orders = 8`, bitmap `0b1000000`. -/
def faA : FAState := FAState.init mmapA

/-- A misaligned boot layout: 71 pages of RAM at address 0, the free pool
being the final 64 pages starting at page 7 — page aligned, which is all
`PhysicalMemoryMap::calculate` guarantees, but not aligned to the 64-page
block that `init` carves from it. -/
def mmapM : MemoryMap := ⟨0, 290816, 4096, 64, 28672, 262144⟩

/-- The frame allocator as initialised on `mmapM`. -/
def faM : FAState := FAState.init mmapM

/-- C10: while `memory::init` has not yet published the slab allocator
(the `OnceLock` inside `KernelAllocator` is empty), the global
`KernelAllocator::alloc` returns the null pointer for every layout — it
neither panics nor allocates, and no state changes. -/
theorem kernelAlloc_uninitialized_returns_null (fa : FAState) (hart : Nat) (layout : Layout) :
    kernelAlloc none fa hart layout = (AllocResult.null, none, fa) := rfl

/-- C9: `FrameAllocator::dealloc` is independent of the caller-supplied
layout beyond the zero-size test: for every pointer inside `ram` and any
two layouts of nonzero size (any alignments), the resulting allocator
states coincide — the freed block's order is read from the frame
descriptor, never from the layout. -/
theorem fa_dealloc_layout_independent (st : FAState) (hart p : Nat) (L1 L2 : Layout)
    (_hp : st.mmap.contains_ram p) (h1 : L1.size ≠ 0) (h2 : L2.size ≠ 0) :
    st.dealloc hart p L1 = st.dealloc hart p L2 := by
  unfold FAState.dealloc
  rw [if_neg h1, if_neg h2]

/-- Witness for C9 at a concrete state: deallocating the page at address
262144 of `faA` with layouts `(4096, 4096)` and `(8192, 8)` gives the
same state. -/
theorem fa_dealloc_layout_independent_witness :
    faA.dealloc 0 262144 ⟨4096, 4096⟩ = faA.dealloc 0 262144 ⟨8192, 8⟩ :=
  fa_dealloc_layout_independent faA 0 262144 ⟨4096, 4096⟩ ⟨8192, 8⟩
    (by constructor <;> decide) (by decide) (by decide)

/-- C4 counterexample: on `faA` (free pool of exactly 262144 bytes) an
allocation of exactly `free_memory.size` bytes with alignment 8 is a
fatal `assert!` panic, not the null return the claim states. -/
theorem fa_alloc_at_free_size_panics :
    (faA.alloc 0 ⟨262144, 8⟩).1 = AllocResult.panic ∧
    AllocResult.panic ≠ AllocResult.null ∧
    faA.mmap.free_size = 262144 := by
  refine ⟨by decide, by decide, by decide⟩

/-- C4 (amended): a request with alignment at most `BASE_SIZE` and
nonzero size equal to or exceeding `free_memory.size` fails the strict
`size < free_memory.size` assertion and panics fatally (instead of
returning null), leaving the state unchanged. -/
theorem fa_alloc_oversize_request_panics (st : FAState) (hart : Nat) (layout : Layout)
    (ha : layout.align ≤ BASE_SIZE) (hs : layout.size ≠ 0)
    (hb : st.mmap.free_size ≤ layout.size) :
    st.alloc hart layout = (AllocResult.panic, st) := by
  unfold FAState.alloc
  rw [if_neg (by omega), if_neg hs, if_neg (by omega)]

/-- Witness for the amended C4 at a concrete state. -/
theorem fa_alloc_oversize_request_panics_witness :
    faA.alloc 0 ⟨262144, 8⟩ = (AllocResult.panic, faA) :=
  fa_alloc_oversize_request_panics faA 0 ⟨262144, 8⟩ (by decide) (by decide) (by decide)

/-- The 8-byte size class with hart 0's cache holding the free slot at
address 266240 (inside the slab page 65). -/
def clsC5 : SizeClassState :=
  { SizeClassState.new 8 with
    hart_caches := Function.update (SizeClassState.new 8).hart_caches 0 ⟨[266240], 128⟩ }

/-- The published slab allocator with `clsC5` as its 8-byte class. -/
def slubC5 : SlubState := ⟨SlubState.new.size_classes.set 0 clsC5⟩

/-- The `faA` with page 65 converted to an 8-byte slab backing `clsC5`: slot
266240 is held in the hart cache, the remaining 511 slots are on the
frame's free chain. -/
def faC5 : FAState :=
  { faA with
    frames := Function.update faA.frames 65
      ⟨0, .Slab ⟨0, (List.range 511).map (fun i => 266248 + i * 8), 1⟩⟩ }

/-- C5 counterexample: the `KernelAllocator` facade does not reject
alignments above `BASE_SIZE`: with the slab allocator published and a
hart cache holding a free slot, an 8-byte request with alignment
`2 * BASE_SIZE = 8192` is routed to the 8-byte size class and returns
that slot — not null. -/
theorem kernelAlloc_align_above_base_not_null :
    (kernelAlloc (some slubC5) faC5 0 ⟨8, 8192⟩).1 = AllocResult.ok 266240 ∧
    BASE_SIZE < 8192 := by
  refine ⟨by decide, by decide⟩

/-- C5 (amended): `FrameAllocator::alloc` returns null for every layout
with alignment strictly above `BASE_SIZE` and leaves the state untouched,
while alignment exactly `BASE_SIZE` passes the gate (witnessed by the
zero-size probe, which reaches the dangling-sentinel return). The
`KernelAllocator` facade, by contrast, does not consult the alignment
when it selects a size class (see the counterexample). -/
theorem fa_alloc_align_gate (st : FAState) (hart : Nat) (layout : Layout) :
    (BASE_SIZE < layout.align → st.alloc hart layout = (AllocResult.null, st)) ∧
    st.alloc hart ⟨0, BASE_SIZE⟩ = (AllocResult.ok 1, st) := by
  constructor
  · intro h
    unfold FAState.alloc
    rw [if_pos h]
  · unfold FAState.alloc
    rw [if_neg (by decide), if_pos rfl]

/-- Witness for the amended C5 at a concrete state. -/
theorem fa_alloc_align_gate_witness :
    faA.alloc 0 ⟨8, 8192⟩ = (AllocResult.null, faA) ∧
    faA.alloc 0 ⟨0, BASE_SIZE⟩ = (AllocResult.ok 1, faA) :=
  ⟨(fa_alloc_align_gate faA 0 ⟨8, 8192⟩).1 (by decide), (fa_alloc_align_gate faA 0 ⟨0, 4096⟩).2⟩

/-- C1 counterexample: an oversize request (4096 bytes > 2048, alignment
8 ≤ `BASE_SIZE`) against the published slab allocator returns null even
though the buddy allocator holds a suitable free block (the facade never
forwards to it: `find_size_class` finds no class and the result is
null). -/
theorem kernelAlloc_oversize_returns_null_with_free_block :
    (kernelAlloc (some SlubState.new) faA 0 ⟨4096, 8⟩).1 = AllocResult.null ∧
    faA.free_lists.find_first_free_from (order_from_size 4096) = some 6 ∧
    (faA.prepare_block (order_from_size 4096)).isSome = true := by
  refine ⟨by decide, by decide, by decide⟩

/-- C1 (amended): oversize requests (size > 2048) are not forwarded to
the buddy allocator: whenever every configured size class is at most 2048
bytes (`SIZE_CLASSES`), `find_size_class` yields no class and
`KernelAllocator::alloc` returns null with both allocators untouched. -/
theorem kernelAlloc_oversize_returns_null (s : SlubState) (fa : FAState) (hart : Nat)
    (layout : Layout) (hc : ∀ c ∈ s.size_classes, c.object_size ≤ 2048)
    (hs : 2048 < layout.size) :
    kernelAlloc (some s) fa hart layout = (AllocResult.null, some s, fa) := by
  have hnone : s.find_size_class layout = none := by
    unfold SlubState.find_size_class
    rw [List.findIdx?_eq_none_iff]
    intro c hcmem
    simp only [decide_eq_false_iff_not]
    exact fun hle => absurd (le_trans hle (hc c hcmem)) (by omega)
  simp only [kernelAlloc, hnone]

/-- Witness for the amended C1 at a concrete state. -/
theorem kernelAlloc_oversize_returns_null_witness :
    kernelAlloc (some SlubState.new) faA 0 ⟨4096, 8⟩ = (AllocResult.null, some SlubState.new, faA) :=
  kernelAlloc_oversize_returns_null SlubState.new faA 0 ⟨4096, 8⟩ (by decide) (by decide)

/-- C3: evaluating `FrameAllocator::init` on the page-aligned but
block-misaligned boot layout `mmapM` (free pool of 64 pages starting at
page 7): the greedy partition pushes frame 7 onto `free_lists[6]` in
state `Free` with order 6, yet its physical address 28672 is not a
multiple of `2^6 * BASE_SIZE = 262144` — the free-list alignment
invariant is already violated immediately after `init`, and the source
contains no alignment assertion that would catch it. -/
theorem init_breaks_alignment_invariant :
    faM.free_lists.lists 6 = [7] ∧
    (faM.frames 7).order = 6 ∧
    (faM.frames 7).state = FrameState.Free ∧
    faM.mmap.frame_to_address 7 % (2 ^ 6 * BASE_SIZE) = 28672 ∧
    (28672 : Nat) ≠ 0 := by
  refine ⟨by decide, by decide, by decide, by decide, by decide⟩

/-- Translating a frame's base address back to its index recovers the
frame. -/
theorem MemoryMap.idx_of_addr (m : MemoryMap) (f : Nat) :
    m.frame_idx_from_address (m.frame_to_address f) = f := by
  show (m.ram_start + f * 4096 - m.ram_start) / 4096 = f
  rw [Nat.add_sub_cancel_left, Nat.mul_div_cancel _ (by norm_num)]

/-- Translating an address `c` pages above a frame's base address gives
index `f + c`. -/
theorem MemoryMap.idx_of_addr_add (m : MemoryMap) (f c : Nat) :
    m.frame_idx_from_address (m.frame_to_address f + c * BASE_SIZE) = f + c := by
  show (m.ram_start + f * 4096 + c * 4096 - m.ram_start) / 4096 = f + c
  rw [Nat.add_assoc, Nat.add_sub_cancel_left, ← Nat.add_mul,
    Nat.mul_div_cancel _ (by norm_num)]

/-- The 2048-byte size class (`slots_per_slab = 2`, hart-cache target 8)
with hart 0's cache holding 8 slots — exactly full — drawn from the four
fully-cached slab pages 64 to 67. -/
def clsC2 : SizeClassState :=
  { SizeClassState.new 2048 with
    hart_caches := Function.update (SizeClassState.new 2048).hart_caches 0
      ⟨[262144, 264192, 266240, 268288, 270336, 272384, 274432, 276480], 8⟩ }

/-- A frame-allocator state matching `clsC2`: pages 64 to 68 are slab
pages of the 2048-byte class (index 8 in `SIZE_CLASSES`) with both slots
in use, and the rest of the 64-page pool sits on the free lists. -/
def faC2 : FAState :=
  { free_lists :=
      ⟨fun k =>
        if k = 0 then [69] else if k = 1 then [70] else if k = 3 then [72]
        else if k = 4 then [80] else if k = 5 then [96] else [], ⟨59⟩⟩
    hart_caches := fun _ => ⟨[], 16⟩
    orders := 8
    frames := fun i =>
      if 64 ≤ i ∧ i ≤ 68 then ⟨0, .Slab ⟨8, [], 2⟩⟩
      else if i = 70 then ⟨1, .Free⟩
      else if i = 72 then ⟨3, .Free⟩
      else if i = 80 then ⟨4, .Free⟩
      else if i = 96 then ⟨5, .Free⟩
      else Frame.new
    mmap := mmapA }

/-- The state after `SizeClassManager::dealloc` of slot 278528 (a slot of
the slab page 68) on the full cache of `clsC2`. -/
def C2deallocResult : SizeClassState × FAState :=
  SizeClassState.dealloc clsC2 faC2 0 278528

/-- C2: failing evaluation — with hart 0's Greedy cache exactly full
(`len = target = 8`, so `drain_amount = 0`), `SizeClassManager::dealloc`
of slot 278528 drains nothing and returns with the cache, both slab
lists, and the whole frame-allocator state (hence every slab's free
chain and in-use count) unchanged, and the freed slot recorded nowhere:
the slot is lost, contradicting the claim that it is either cached or
threaded back onto its owning slab. -/
theorem slub_dealloc_full_cache_loses_slot :
    (clsC2.hart_caches 0).is_full = true ∧
    (C2deallocResult.1.hart_caches 0).items = (clsC2.hart_caches 0).items ∧
    278528 ∉ (C2deallocResult.1.hart_caches 0).items ∧
    C2deallocResult.1.part_slabs = [] ∧
    C2deallocResult.1.empty_slabs = [] ∧
    C2deallocResult.2 = faC2 := by
  refine ⟨by decide, by decide, by decide, by decide, by decide, rfl⟩

/-- The 2048-byte size class holding three fully-free slabs (pages 65,
66, 67) and one partial slab (page 64, one slot in use). -/
def clsC6 : SizeClassState :=
  { SizeClassState.new 2048 with part_slabs := [64], empty_slabs := [65, 66, 67] }

/-- A frame-allocator state matching `clsC6`: page 64 has slot 264192 in
use and slot 262144 free; pages 65 to 67 are fully free slabs; the rest
of the 64-page pool sits on the free lists. -/
def faC6 : FAState :=
  { free_lists :=
      ⟨fun k =>
        if k = 2 then [68] else if k = 3 then [72] else if k = 4 then [80]
        else if k = 5 then [96] else [], ⟨60⟩⟩
    hart_caches := fun _ => ⟨[], 16⟩
    orders := 8
    frames := fun i =>
      if i = 64 then ⟨0, .Slab ⟨8, [262144], 1⟩⟩
      else if i = 65 then ⟨0, .Slab ⟨8, [266240, 268288], 0⟩⟩
      else if i = 66 then ⟨0, .Slab ⟨8, [270336, 272384], 0⟩⟩
      else if i = 67 then ⟨0, .Slab ⟨8, [274432, 276480], 0⟩⟩
      else if i = 68 then ⟨2, .Free⟩
      else if i = 72 then ⟨3, .Free⟩
      else if i = 80 then ⟨4, .Free⟩
      else if i = 96 then ⟨5, .Free⟩
      else Frame.new
    mmap := mmapA }

/-- The state after the drained-slot handler frees slot 264192, emptying
slab page 64 while three empty slabs are already held. -/
def C6freeResult : SizeClassState × FAState :=
  SizeClassState.free_drained_slot clsC6 faC6 0 264192

/-- C6: failing evaluation — with three empty slabs already held, freeing
the last in-use slot of slab page 64 splices it out of `partial_slabs`
and pushes it onto `empty_slabs`, and the 4th empty (not the 5th) already
pops the oldest (page 67); but the release call passes
`oldest_slab.cast()` — the descriptor's own byte address 69824 inside the
frame-pool region — so `FrameAllocator::dealloc` frees the frame-pool
metadata frame 17 (which was already `Free`, so the double-free
`debug_assert` would fire in a debug build) while slab frame 67 stays in
`Slab` state and its backing page is never released to the buddy
allocator. -/
theorem slub_empty_release_frees_descriptor_address :
    clsC6.empty_slabs.length = 3 ∧
    EMPTY_SLABS_CAP = 4 ∧
    C6freeResult.1.part_slabs = [] ∧
    C6freeResult.1.empty_slabs = [64, 65, 66] ∧
    faC6.mmap.frame_ptr_addr 67 = 69824 ∧
    faC6.mmap.frame_idx_from_address 69824 = 17 ∧
    faC6.mmap.frame_to_address 67 = 274432 ∧
    (C6freeResult.2.frames 67).state = FrameState.Slab ⟨8, [274432, 276480], 0⟩ ∧
    (C6freeResult.2.frames 67).state ≠ FrameState.Free ∧
    (faC6.frames 17).is_free = true ∧
    (C6freeResult.2.frames 17).state = FrameState.Free ∧
    (C6freeResult.2.hart_caches 0).items = [17] := by
  refine ⟨by decide, by decide, by decide, by decide, by decide, by decide, by decide,
    by decide, by decide, by decide, by decide, by decide⟩

/-- Bit `k` of the bitmap after `set o`. -/
theorem Bitmap.testBit_set (b : Bitmap) (o k : Nat) :
    (b.set o).bits.testBit k = (b.bits.testBit k || decide (o = k)) := by
  simp [Bitmap.set, Nat.testBit_or, Nat.one_shiftLeft, Nat.testBit_two_pow]

/-- Bit `k` of the bitmap after `clear o`, for an in-range order and an
in-range bitmap. -/
theorem Bitmap.testBit_clear (b : Bitmap) (o k : Nat) (ho : o < 64) (hb : b.bits < 2 ^ 64) :
    (b.clear o).bits.testBit k = (b.bits.testBit k && decide (k ≠ o)) := by
  simp only [Bitmap.clear, Nat.testBit_and, Nat.testBit_xor, Nat.one_shiftLeft, MASK64,
    Nat.testBit_two_pow_sub_one, Nat.testBit_two_pow]
  by_cases hk : k < 64
  · by_cases hko : k = o
    · simp [hko, ho]
    · simp [hk, hko, Ne.symm hko]
  · have hbk : b.bits.testBit k = false :=
      Nat.testBit_lt_two_pow
        (lt_of_lt_of_le hb (Nat.pow_le_pow_right (by norm_num) (le_of_not_lt hk)))
    simp [hbk]

/-- Clearing a bit keeps the bitmap inside 64 bits. -/
theorem Bitmap.clear_lt (b : Bitmap) (o : Nat) (hb : b.bits < 2 ^ 64) :
    (b.clear o).bits < 2 ^ 64 :=
  lt_of_le_of_lt Nat.and_le_left hb

/-- The bitmap-synchronisation invariant of `FreeLists` (spec section
4.4): bit `k` is set exactly when `free_lists[k]` is non-empty; the
bitmap fits its 64 bits. -/
def FreeLists.BitmapInv (fl : FreeLists) : Prop :=
  fl.bitmap.bits < 2 ^ 64 ∧ ∀ k, (fl.bitmap.bits.testBit k = true ↔ fl.lists k ≠ [])

/-- C7: the bitmap is synchronised with list emptiness at every mutation:
the invariant holds for `FreeLists::new` and is preserved by every
`push_frame`, `pop_frame` and `remove_frame` whose frame order is within
the 64 orders the `u64` bitmap covers (the operations read the order from
the frame descriptor, so the recorded order is the list index used). -/
theorem freeLists_bitmap_invariant :
    FreeLists.BitmapInv FreeLists.new ∧
    (∀ (fl : FreeLists) (o f : Nat), o < 64 → fl.BitmapInv →
      (fl.push_frame o f).BitmapInv) ∧
    (∀ (fl : FreeLists) (o : Nat) (r : Nat × FreeLists), o < 64 → fl.BitmapInv →
      fl.pop_frame o = some r → r.2.BitmapInv) ∧
    (∀ (fl : FreeLists) (o f : Nat), o < 64 → fl.BitmapInv →
      (fl.remove_frame o f).BitmapInv) := by
  refine ⟨⟨by norm_num [FreeLists.new, Bitmap.new], ?_⟩, ?_, ?_, ?_⟩
  · intro k
    simp [FreeLists.new, Bitmap.new]
  · -- push_frame
    rintro fl o f ho ⟨hb, hinv⟩
    refine ⟨?_, ?_⟩
    · show fl.bitmap.bits ||| 1 <<< o < 2 ^ 64
      exact Nat.or_lt_two_pow hb
        (by rw [Nat.one_shiftLeft]; exact Nat.pow_lt_pow_right (by norm_num) ho)
    · intro k
      show (fl.bitmap.set o).bits.testBit k = true ↔
        Function.update fl.lists o (f :: fl.lists o) k ≠ []
      rw [Bitmap.testBit_set]
      by_cases hk : k = o
      · subst hk
        simp [Function.update_same]
      · simp [Function.update_noteq hk, hinv k, Ne.symm hk]
  · -- pop_frame
    rintro fl o r ho ⟨hb, hinv⟩ hpop
    unfold FreeLists.pop_frame at hpop
    cases hl : fl.lists o with
    | nil =>
      rw [hl] at hpop
      exact absurd hpop (by simp)
    | cons f rest =>
      rw [hl] at hpop
      obtain rfl : r = (f, ⟨Function.update fl.lists o rest,
          if rest.isEmpty then fl.bitmap.clear o else fl.bitmap⟩) :=
        (Option.some_inj.mp hpop).symm
      by_cases hrest : rest = []
      · subst hrest
        refine ⟨Bitmap.clear_lt fl.bitmap o hb, ?_⟩
        intro k
        show (fl.bitmap.clear o).bits.testBit k = true ↔
          Function.update fl.lists o [] k ≠ []
        rw [Bitmap.testBit_clear fl.bitmap o k ho hb]
        by_cases hk : k = o
        · subst hk
          simp [Function.update_same]
        · simp [Function.update_noteq hk, hinv k, hk]
      · obtain ⟨g, gs, rfl⟩ := List.exists_cons_of_ne_nil hrest
        refine ⟨hb, ?_⟩
        intro k
        show fl.bitmap.bits.testBit k = true ↔
          Function.update fl.lists o (g :: gs) k ≠ []
        by_cases hk : k = o
        · subst hk
          have hbit : fl.bitmap.bits.testBit k = true := (hinv k).mpr (by rw [hl]; simp)
          simp [hbit, Function.update_same]
        · simp [Function.update_noteq hk, hinv k]
  · -- remove_frame
    rintro fl o f ho ⟨hb, hinv⟩
    by_cases hre : (fl.lists o).erase f = []
    · refine ⟨?_, ?_⟩
      · show (if ((fl.lists o).erase f).isEmpty then fl.bitmap.clear o
            else fl.bitmap).bits < 2 ^ 64
        rw [hre]
        exact Bitmap.clear_lt fl.bitmap o hb
      · intro k
        show (if ((fl.lists o).erase f).isEmpty then fl.bitmap.clear o
            else fl.bitmap).bits.testBit k = true ↔
          Function.update fl.lists o ((fl.lists o).erase f) k ≠ []
        rw [hre]
        show (fl.bitmap.clear o).bits.testBit k = true ↔
          Function.update fl.lists o [] k ≠ []
        rw [Bitmap.testBit_clear fl.bitmap o k ho hb]
        by_cases hk : k = o
        · subst hk
          simp [Function.update_same]
        · simp [Function.update_noteq hk, hinv k, hk]
    · obtain ⟨g, gs, hgs⟩ := List.exists_cons_of_ne_nil hre
      refine ⟨?_, ?_⟩
      · show (if ((fl.lists o).erase f).isEmpty then fl.bitmap.clear o
            else fl.bitmap).bits < 2 ^ 64
        rw [hgs]
        exact hb
      · intro k
        show (if ((fl.lists o).erase f).isEmpty then fl.bitmap.clear o
            else fl.bitmap).bits.testBit k = true ↔
          Function.update fl.lists o ((fl.lists o).erase f) k ≠ []
        rw [hgs]
        show fl.bitmap.bits.testBit k = true ↔
          Function.update fl.lists o (g :: gs) k ≠ []
        by_cases hk : k = o
        · subst hk
          have hlo : fl.lists k ≠ [] := by
            intro h
            rw [h] at hre
            simp at hre
          simp [Function.update_same, (hinv k).mpr hlo]
        · simp [Function.update_noteq hk, hinv k]

/-- Witness for C7: the invariant holds after pushing frame 5 at order 3
onto fresh free lists. -/
theorem freeLists_bitmap_invariant_witness :
    (FreeLists.new.push_frame 3 5).BitmapInv :=
  freeLists_bitmap_invariant.2.1 FreeLists.new 3 5 (by decide) freeLists_bitmap_invariant.1

/-- Trailing-zero count of a power of two within fuel. -/
theorem trailingZerosAux_two_pow : ∀ (fuel k : Nat), k < fuel →
    trailingZerosAux fuel (2 ^ k) = k := by
  intro fuel
  induction fuel with
  | zero => intro k hk; omega
  | succ n ih =>
    intro k hk
    cases k with
    | zero => simp [trailingZerosAux]
    | succ j =>
      have h2 : 2 ^ (j + 1) % 2 = 0 := by
        rw [Nat.pow_succ]
        exact Nat.mul_mod_left _ 2
      have h3 : 2 ^ (j + 1) / 2 = 2 ^ j := by
        rw [Nat.pow_succ, Nat.mul_div_cancel _ (by norm_num)]
      simp [trailingZerosAux, h2, h3, ih j (by omega)]

/-- The `u64::trailing_zeros` of `2^k` is `k`. -/
theorem trailingZeros_two_pow (k : Nat) (hk : k < 64) : trailingZeros (2 ^ k) = k :=
  trailingZerosAux_two_pow 64 k hk

/-- Masking orders below `r` away from the single bit `k ≥ r` keeps it. -/
theorem pow_and_mask (k r : Nat) (hk : k < 64) (hr : r ≤ k) :
    2 ^ k &&& (MASK64 ^^^ ((1 <<< r) - 1)) = 2 ^ k := by
  apply Nat.eq_of_testBit_eq
  intro j
  simp only [Nat.testBit_and, Nat.testBit_xor, MASK64, Nat.one_shiftLeft,
    Nat.testBit_two_pow_sub_one, Nat.testBit_two_pow]
  by_cases hj : k = j
  · subst hj
    simp [hk, show ¬k < r by omega]
  · simp [hj]

/-- Clearing the single set bit empties the bitmap. -/
theorem pow_and_not_self (k : Nat) (hk : k < 64) :
    2 ^ k &&& (MASK64 ^^^ (1 <<< k)) = 0 := by
  apply Nat.eq_of_testBit_eq
  intro j
  simp only [Nat.testBit_and, Nat.testBit_xor, MASK64, Nat.one_shiftLeft,
    Nat.testBit_two_pow_sub_one, Nat.testBit_two_pow, Nat.zero_testBit]
  by_cases hj : k = j
  · subst hj
    simp [hk]
  · simp [hj]

/-- The `find_first_set_from r` on the single-bit bitmap `2^k` (with
`r ≤ k < 64`) finds `k`. -/
theorem Bitmap.find_first_set_from_pow (k r : Nat) (hk : k < 64) (hr : r ≤ k) :
    Bitmap.find_first_set_from ⟨2 ^ k⟩ r = some k := by
  show (if 2 ^ k &&& (MASK64 ^^^ ((1 <<< r) - 1)) = 0 then none
    else some (trailingZeros (2 ^ k &&& (MASK64 ^^^ ((1 <<< r) - 1))))) = some k
  rw [pow_and_mask k r hk hr, if_neg (Nat.pos_iff_ne_zero.mp (Nat.two_pow_pos k)),
    trailingZeros_two_pow k hk]

/-- XOR with a single bit strictly below an address's alignment is
addition: if `a` is a multiple of `2^(j+1)` then `a XOR 2^j = a + 2^j`. -/
theorem xor_two_pow_of_aligned (a j : Nat) (h : a % 2 ^ (j + 1) = 0) :
    a ^^^ 2 ^ j = a + 2 ^ j := by
  obtain ⟨m, rfl⟩ : ∃ m, a = m <<< (j + 1) :=
    ⟨a / 2 ^ (j + 1), by
      rw [Nat.shiftLeft_eq]
      exact (Nat.div_mul_cancel (Nat.dvd_of_mod_eq_zero h)).symm⟩
  have hrw : m <<< (j + 1) + 2 ^ j = (2 * m + 1) <<< j := by
    rw [Nat.shiftLeft_eq, Nat.shiftLeft_eq, Nat.pow_succ]
    ring
  apply Nat.eq_of_testBit_eq
  intro i
  rw [Nat.testBit_xor, Nat.testBit_two_pow, hrw, Nat.testBit_shiftLeft, Nat.testBit_shiftLeft]
  rcases Nat.lt_trichotomy i j with hij | rfl | hij
  · simp [show ¬i ≥ j + 1 by omega, show ¬i ≥ j by omega, show ¬j = i by omega]
  · simp [show ¬i ≥ i + 1 by omega, show i ≥ i by omega, Nat.mul_add_mod]
  · have h1 : i ≥ j + 1 := by omega
    have h2 : i ≥ j := by omega
    simp only [h1, h2, decide_eq_true_eq, Bool.true_and, if_true, decide_True,
      show ¬j = i by omega, decide_False, Bool.xor_false]
    have h3 : i - j = (i - j - 1) + 1 := by omega
    rw [h3, Nat.testBit_add_one, show (2 * m + 1) / 2 = m by omega,
      show i - (j + 1) = i - j - 1 by omega]

/-- A frame's `is_free` test holds exactly in the `Free` state. -/
theorem Frame.is_free_eq_true_iff (fr : Frame) : fr.is_free = true ↔ fr.state = .Free := by
  cases fr with
  | mk o st => cases st <;> simp [Frame.is_free]

/-- Splitting followed by freeing the returned half: the composition the
round-trip law (spec section 8) speaks about. -/
def FAState.split_then_free (st : FAState) (req : Nat) : Option FAState :=
  (st.prepare_block req).map (fun r => FAState.free_to_global r.2 r.1)

/-- The coalescing loop exits immediately at the top order. -/
theorem FAState.fg_loop_exit (fuel : Nat) (st : FAState) (cur cur_addr cur_order : Nat)
    (h : ¬cur_order < st.orders - 1) (hf : 0 < fuel) :
    FAState.fg_loop fuel st cur cur_addr cur_order = (st, cur) := by
  cases fuel with
  | zero => omega
  | succ n =>
    unfold FAState.fg_loop
    rw [if_neg h]

/-- The coalescing loop exits when the buddy check fails. -/
theorem FAState.fg_loop_stop (fuel : Nat) (st : FAState) (cur cur_addr cur_order : Nat)
    (h : cur_order < st.orders - 1)
    (hbf : ¬((st.frames (st.mmap.frame_idx_from_address
        (cur_addr ^^^ (1 <<< cur_order) * BASE_SIZE))).is_free = true ∧
      (st.frames (st.mmap.frame_idx_from_address
        (cur_addr ^^^ (1 <<< cur_order) * BASE_SIZE))).order = cur_order))
    (hf : 0 < fuel) :
    FAState.fg_loop fuel st cur cur_addr cur_order = (st, cur) := by
  cases fuel with
  | zero => omega
  | succ n =>
    unfold FAState.fg_loop
    rw [if_pos h, if_neg hbf]

/-- C8: round-trip law of the buddy allocator. Starting from a state
whose free lists hold exactly one block — order `k ≥ 1`, head frame `f`
in state `Free`, at a `2^k`-page-aligned address, with the block's
upper-half frame also (stale-)`Free` as `init` leaves interior frames —
`prepare_block(k-1)` splits the block and returns the lower half `f`, and
`free_to_global` on that half coalesces the two halves back together:
the original block is free at the same address with order `k`, and the
free lists and the bitmap equal the starting state (only the upper-half
frame's stale descriptor order differs, which no invariant consults).
The side condition `hO` says the merged block's own order-`k` buddy does
not spuriously coalesce: either `k` is the top order, or that buddy frame
is a different frame that is not free at order `k`. -/
theorem buddy_split_coalesce_roundtrip
    (hc : Nat → HartCache) (orders : Nat) (F : Nat → Frame) (mmap : MemoryMap)
    (k f v : Nat)
    (hk1 : 1 ≤ k) (hk2 : k < orders) (hk3 : k < 64)
    (hF : F f = ⟨k, .Free⟩)
    (hU : (F (f + 2 ^ (k - 1))).state = .Free)
    (hA : mmap.frame_to_address f % (2 ^ k * BASE_SIZE) = 0)
    (hv : v = mmap.frame_idx_from_address (mmap.frame_to_address f ^^^ (2 ^ k * BASE_SIZE)))
    (hO : k + 1 = orders ∨ (v ≠ f ∧ v ≠ f + 2 ^ (k - 1) ∧
      ¬((F v).state = .Free ∧ (F v).order = k))) :
    ((FAState.mk ⟨Function.update (fun _ => []) k [f], ⟨2 ^ k⟩⟩ hc orders F mmap).prepare_block
        (k - 1)).map Prod.fst = some f ∧
    (FAState.mk ⟨Function.update (fun _ => []) k [f], ⟨2 ^ k⟩⟩ hc orders F mmap).split_then_free
        (k - 1) =
      some (FAState.mk ⟨Function.update (fun _ => []) k [f], ⟨2 ^ k⟩⟩ hc orders
        (Function.update F (f + 2 ^ (k - 1)) ⟨k - 1, .Free⟩) mmap) := by
  have hupos : 0 < 2 ^ (k - 1) := Nat.two_pow_pos _
  have huf : f + 2 ^ (k - 1) ≠ f := by omega
  have hfu : f ≠ f + 2 ^ (k - 1) := by omega
  have hkk : (k - 1 : Nat) ≠ k := by omega
  have hBpow : (BASE_SIZE : Nat) = 2 ^ 12 := rfl
  have hA' : mmap.frame_to_address f % 2 ^ (k - 1 + 12 + 1) = 0 := by
    have he : k - 1 + 12 + 1 = k + 12 := by omega
    rw [he]
    rw [hBpow, ← Nat.pow_add] at hA
    exact hA
  have hxor : mmap.frame_to_address f ^^^ (1 <<< (k - 1)) * BASE_SIZE =
      mmap.frame_to_address f + 2 ^ (k - 1) * BASE_SIZE := by
    rw [Nat.one_shiftLeft, hBpow, ← Nat.pow_add]
    exact xor_two_pow_of_aligned _ _ hA'
  have hpop : (FreeLists.mk (Function.update (fun _ => []) k [f]) ⟨2 ^ k⟩).pop_frame k =
      some (f, ⟨Function.update (Function.update (fun _ => []) k [f]) k [], ⟨0⟩⟩) := by
    have hl0 : (FreeLists.mk (Function.update (fun _ => []) k [f]) ⟨2 ^ k⟩).lists k = [f] := by
      show Function.update (fun _ => []) k [f] k = [f]
      simp
    unfold FreeLists.pop_frame
    rw [hl0]
    simp [Bitmap.clear, pow_and_not_self k hk3]
  have hprep : (FAState.mk ⟨Function.update (fun _ => []) k [f], ⟨2 ^ k⟩⟩ hc orders F
        mmap).prepare_block (k - 1) =
      some (f, FAState.mk
        ⟨Function.update (Function.update (Function.update (fun _ => []) k [f]) k [])
            (k - 1) [f + 2 ^ (k - 1)], ⟨2 ^ (k - 1)⟩⟩
        hc orders
        (Function.update (Function.update F f ⟨k - 1, .Free⟩) (f + 2 ^ (k - 1))
          ⟨k - 1, .Free⟩)
        mmap) := by
    simp only [FAState.prepare_block, FreeLists.find_first_free_from,
      Bitmap.find_first_set_from_pow k (k - 1) hk3 (by omega), hpop,
      show k - (k - 1) = 1 by omega, FAState.split_loop, Nat.add_zero,
      Nat.one_shiftLeft, MemoryMap.idx_of_addr_add, FAState.set_order, FAState.set_frame,
      FAState.fl_push, hF, Function.update_same, Function.update_noteq huf, hU,
      FreeLists.push_frame, Function.update_noteq hkk,
      Bitmap.set, Nat.zero_or]
  refine ⟨by rw [hprep]; rfl, ?_⟩
  have hkk2 : k ≠ k - 1 := by omega
  have hrem : (FreeLists.mk
        (Function.update (Function.update (Function.update (fun _ => []) k [f]) k [])
          (k - 1) [f + 2 ^ (k - 1)]) ⟨2 ^ (k - 1)⟩).remove_frame (k - 1) (f + 2 ^ (k - 1)) =
      ⟨Function.update (Function.update (Function.update (Function.update (fun _ => []) k [f])
          k []) (k - 1) [f + 2 ^ (k - 1)]) (k - 1) [], ⟨0⟩⟩ := by
    unfold FreeLists.remove_frame
    have hl1 : (FreeLists.mk
        (Function.update (Function.update (Function.update (fun _ => []) k [f]) k [])
          (k - 1) [f + 2 ^ (k - 1)]) ⟨2 ^ (k - 1)⟩).lists (k - 1) = [f + 2 ^ (k - 1)] := by
      show Function.update (Function.update (Function.update (fun _ => []) k [f]) k [])
        (k - 1) [f + 2 ^ (k - 1)] (k - 1) = [f + 2 ^ (k - 1)]
      simp
    rw [hl1, List.erase_cons_head]
    simp [Bitmap.clear, pow_and_not_self (k - 1) (by omega)]
  have hloop : FAState.fg_loop (orders + 1)
      (FAState.mk
        ⟨Function.update (Function.update (Function.update (fun _ => []) k [f]) k [])
            (k - 1) [f + 2 ^ (k - 1)], ⟨2 ^ (k - 1)⟩⟩
        hc orders
        (Function.update (Function.update F f ⟨k - 1, .Free⟩) (f + 2 ^ (k - 1))
          ⟨k - 1, .Free⟩)
        mmap) f (mmap.frame_to_address f) (k - 1) =
      (FAState.mk
        ⟨Function.update (Function.update (Function.update (Function.update (fun _ => []) k [f])
            k []) (k - 1) [f + 2 ^ (k - 1)]) (k - 1) [], ⟨0⟩⟩
        hc orders
        (Function.update (Function.update (Function.update F f ⟨k - 1, .Free⟩)
          (f + 2 ^ (k - 1)) ⟨k - 1, .Free⟩) f ⟨k, .Free⟩)
        mmap, f) := by
    simp only [FAState.fg_loop]
    rw [if_pos (show k - 1 < orders - 1 by omega)]
    rw [hxor, MemoryMap.idx_of_addr_add]
    simp only [Function.update_same]
    rw [if_pos (show (Frame.mk (k - 1) .Free).is_free = true ∧ True from ⟨rfl, trivial⟩)]
    simp only [hrem]
    rw [if_neg (show ¬mmap.frame_to_address f + 2 ^ (k - 1) * BASE_SIZE <
      mmap.frame_to_address f by omega)]
    simp only [FAState.set_order, FAState.set_frame, Function.update_noteq hfu,
      Function.update_same]
    rw [show k - 1 + 1 = k by omega]
    by_cases hcond : k < orders - 1
    · rcases hO with hOl | ⟨hv1, hv2, hv3⟩
      · omega
      · apply FAState.fg_loop_stop
        · exact hcond
        · rw [if_neg (show ¬mmap.frame_to_address f + 2 ^ (k - 1) * BASE_SIZE <
            mmap.frame_to_address f by omega)]
          rw [Nat.one_shiftLeft, ← hv]
          rintro ⟨hfr, hor⟩
          simp only [Function.update_noteq hv1, Function.update_noteq hv2] at hfr hor
          exact hv3 ⟨(Frame.is_free_eq_true_iff (F v)).mp hfr, hor⟩
        · omega
    · exact FAState.fg_loop_exit _ _ _ _ _ hcond (by omega)
  have hLfin : Function.update (Function.update (Function.update (Function.update
        (Function.update (fun _ => ([] : List Nat)) k [f]) k []) (k - 1) [f + 2 ^ (k - 1)])
        (k - 1) []) k [f] = Function.update (fun _ => []) k [f] := by
    funext j
    by_cases hj : j = k
    · subst hj
      simp
    · by_cases hj2 : j = k - 1
      · subst hj2
        simp [Function.update_noteq hj]
      · simp [Function.update_noteq hj, Function.update_noteq hj2]
  have hFfin : Function.update (Function.update (Function.update F f ⟨k - 1, .Free⟩)
        (f + 2 ^ (k - 1)) ⟨k - 1, .Free⟩) f ⟨k, .Free⟩ =
      Function.update F (f + 2 ^ (k - 1)) ⟨k - 1, .Free⟩ := by
    funext j
    by_cases hj : j = f
    · subst hj
      simp [Function.update_noteq hfu, hF]
    · by_cases hj2 : j = f + 2 ^ (k - 1)
      · subst hj2
        simp [Function.update_noteq huf]
      · simp [Function.update_noteq hj, Function.update_noteq hj2]
  unfold FAState.split_then_free
  rw [hprep]
  simp only [Option.map_some']
  refine congrArg some ?_
  unfold FAState.free_to_global
  simp only [Function.update_noteq hfu, Function.update_same]
  rw [hloop]
  simp only [FAState.fl_push, FreeLists.push_frame, Function.update_same,
    Function.update_noteq hkk2, Bitmap.set, Nat.zero_or, Nat.one_shiftLeft]
  have hord : (Function.update (Function.update (Function.update F f ⟨k - 1, .Free⟩)
      (f + 2 ^ (k - 1)) ⟨k - 1, .Free⟩) f ⟨k, .Free⟩ f).order = k := by
    rw [Function.update_same]
  have hl2 : Function.update (Function.update (Function.update (Function.update
      (fun _ => ([] : List Nat)) k [f]) k []) (k - 1) [f + 2 ^ (k - 1)]) (k - 1) [] k = [] := by
    rw [Function.update_noteq hkk2, Function.update_noteq hkk2, Function.update_same]
  rw [hord, hl2, hLfin, hFfin]

/-- Witness for C8 at a concrete state: two pages of RAM, a single free
order-1 block at frame 0 — splitting at order 0 and freeing the returned
half restores the original free lists and bitmap. -/
theorem buddy_split_coalesce_roundtrip_witness :
    ((FAState.mk ⟨Function.update (fun _ => []) 1 [0], ⟨2 ^ 1⟩⟩ (fun _ => ⟨[], 16⟩) 2
        (fun i => if i = 0 then ⟨1, .Free⟩ else ⟨0, .Free⟩) ⟨0, 8192, 4096, 64, 0, 8192⟩).prepare_block
        (1 - 1)).map Prod.fst = some 0 ∧
    (FAState.mk ⟨Function.update (fun _ => []) 1 [0], ⟨2 ^ 1⟩⟩ (fun _ => ⟨[], 16⟩) 2
        (fun i => if i = 0 then ⟨1, .Free⟩ else ⟨0, .Free⟩) ⟨0, 8192, 4096, 64, 0, 8192⟩).split_then_free
        (1 - 1) =
      some (FAState.mk ⟨Function.update (fun _ => []) 1 [0], ⟨2 ^ 1⟩⟩ (fun _ => ⟨[], 16⟩) 2
        (Function.update (fun i => if i = 0 then ⟨1, .Free⟩ else ⟨0, .Free⟩) (0 + 2 ^ (1 - 1))
          ⟨1 - 1, .Free⟩) ⟨0, 8192, 4096, 64, 0, 8192⟩) :=
  buddy_split_coalesce_roundtrip (fun _ => ⟨[], 16⟩) 2
    (fun i => if i = 0 then ⟨1, .Free⟩ else ⟨0, .Free⟩) ⟨0, 8192, 4096, 64, 0, 8192⟩ 1 0 2
    (by decide) (by decide) (by decide) (by decide) (by decide) (by decide)
    (by decide) (Or.inl (by decide))

end Auton
